import Mathlib

/-!
Shallow embedding of src/main.py (an NBA injuries aggregation service) and
verification of its specification claims.

Modelling conventions:
* Python strings are Lean Strings; every Python string operation used by the
  source (strip, lower, upper, split, join, slicing, substring test) is
  re-implemented below by structural recursion on the character list, with
  ASCII semantics for case functions (Char.toLower / Char.isLower agree with
  Python on ASCII characters, which covers all inputs considered here).
* BeautifulSoup DOM extraction is abstracted: a fetched ESPN/CBS page is
  represented by its list of tables (per table: the texts of all th cells in
  order, and for each tr the texts of its td cells), and a fetched NBC page by
  the flattened visible text produced by soup.get_text with newline
  separators.  The parsing logic downstream of that extraction is embedded
  from the source.
* Network calls are explicit values: an HTML fetch is a FetchResult carrying
  the HTTP status, the raw response text and the extracted body; the
  Roster-API (balldontlie) search endpoint is an oracle function, and the
  player-injuries endpoint data is passed as a list.
* Python exceptions (HTTPException, IndexError) are modelled with Except;
  a fallible step returns Except PyError.
-/

/-- Python str.lower (ASCII case mapping, as used on the names here). -/
def pyLower (s : String) : String := String.mk (s.data.map Char.toLower)

/-- Python str.upper (ASCII case mapping). -/
def pyUpper (s : String) : String := String.mk (s.data.map Char.toUpper)

/-- Characters of Python str.strip(): drop whitespace at both ends. -/
def pyTrimChars (l : List Char) : List Char :=
  ((l.dropWhile Char.isWhitespace).reverse.dropWhile Char.isWhitespace).reverse

/-- Python str.strip(). -/
def pyTrim (s : String) : String := String.mk (pyTrimChars s.data)

/-- Helper for Python str.split() with no argument (acc holds the current
token reversed). -/
def pySplitAux : List Char → List Char → List String
  | [], acc => if acc.isEmpty then [] else [String.mk acc.reverse]
  | c :: cs, acc =>
    if c.isWhitespace then
      if acc.isEmpty then pySplitAux cs []
      else String.mk acc.reverse :: pySplitAux cs []
    else pySplitAux cs (c :: acc)

/-- Python str.split() with no argument: split on whitespace runs, dropping
empty pieces. -/
def pySplit (s : String) : List String := pySplitAux s.data []

/-- Helper for Python str.split(sep) with a one-character separator. -/
def pySplitOnAux (sep : Char) : List Char → List Char → List String
  | [], acc => [String.mk acc.reverse]
  | c :: cs, acc =>
    if c = sep then String.mk acc.reverse :: pySplitOnAux sep cs []
    else pySplitOnAux sep cs (c :: acc)

/-- Python str.split(sep) for a one-character separator (keeps empty pieces). -/
def pySplitOn (sep : Char) (s : String) : List String := pySplitOnAux sep s.data []

/-- Python sep.join(items). -/
def pyJoin (sep : String) : List String → String
  | [] => ""
  | [x] => x
  | x :: y :: xs => x ++ sep ++ pyJoin sep (y :: xs)

/-- Python s[:n] (character slicing). -/
def pyTakeStr (n : Nat) (s : String) : String := String.mk (s.data.take n)

/-- The normalization the source applies to a name for matching purposes:
" ".join(s.lower().split()) — main.py line 708 (inside _normalize_full_name)
and line 726 (query_norm in _search_bdl_best_player). -/
def pyNormSpace (s : String) : String := pyJoin " " (pySplit (pyLower s))

/-- needle starts hay (character lists). -/
def chStarts : List Char → List Char → Bool
  | [], _ => true
  | _ :: _, [] => false
  | a :: as, b :: bs => a = b && chStarts as bs

/-- needle occurs somewhere inside hay (character lists). -/
def chHas (needle : List Char) : List Char → Bool
  | [] => chStarts needle []
  | b :: bs => chStarts needle (b :: bs) || chHas needle bs

/-- Python (needle in hay) for strings. -/
def pyIn (needle hay : String) : Bool := chHas needle.data hay.data

/-- First index at which the predicate holds, counting from i. -/
def idxOfAux (p : String → Bool) : List String → Nat → Option Nat
  | [], _ => none
  | x :: xs, i => if p x then some i else idxOfAux p xs (i + 1)

/-- Python list.index-style search returning an Option. -/
def idxOf (p : String → Bool) (l : List String) : Option Nat := idxOfAux p l 0

/-- Python headers.index(h): position of the first occurrence (the source only
calls it when h is present). -/
def pyIndexOfAux (x : String) : List String → Nat → Nat
  | [], i => i
  | y :: ys, i => if y = x then i else pyIndexOfAux x ys (i + 1)

def pyIndexOf (l : List String) (x : String) : Nat := pyIndexOfAux x l 0

/-- Python membership test in a list of strings. -/
def strMem (x : String) (l : List String) : Bool := l.any (fun y => y = x)

/-- Errors the embedded code can signal: fastapi.HTTPException with a status
code and detail, or a raw Python IndexError. -/
inductive PyError where
  | http (status : Nat) (detail : String)
  | indexError
deriving DecidableEq

/-- Python cells[i] on a list: IndexError when i is out of range. -/
def pyGet (cells : List String) (i : Nat) : Except PyError String :=
  match cells.get? i with
  | some v => Except.ok v
  | none => Except.error PyError.indexError

/-- An HTML table as extracted by BeautifulSoup: the texts of all th cells of
the table in order, and for each tr the texts of its td cells. -/
structure Table where
  headers : List String
  rows : List (List String)
deriving DecidableEq

/-- One record produced by _parse_espn_injuries. -/
structure EspnRec where
  player_name : String
  position : String
  est_return_date : String
  status : String
  comment : String
  source : String
deriving DecidableEq

/-- One record produced by _parse_cbs_injuries. -/
structure CbsRec where
  player_name : String
  position : String
  updated : String
  injury : String
  status : String
  source : String
deriving DecidableEq

/-- One record produced by _parse_nbc_injuries. -/
structure NbcRec where
  player_name : String
  position : String
  date : String
  injury : String
  description : String
  team : String
  source : String
deriving DecidableEq

/-- The header names _parse_espn_injuries requires (main.py line 379). -/
def espnWanted : List String := ["NAME", "POS", "EST. RETURN DATE", "STATUS", "COMMENT"]

/-- One row of an ESPN table (main.py 389-412): rows with fewer than 5 cells
are skipped; otherwise the five named columns are read positionally (Python
raises IndexError when a header index exceeds the row length), and rows with
an empty or header-literal name are discarded. -/
def parseEspnRow (iName iPos iRet iSt iCom : Nat) (cells : List String) :
    Except PyError (Option EspnRec) :=
  if cells.length < 5 then Except.ok none
  else do
    let name ← pyGet cells iName
    let pos ← pyGet cells iPos
    let ret ← pyGet cells iRet
    let st ← pyGet cells iSt
    let com ← pyGet cells iCom
    if name = "" || pyUpper name = "NAME" then pure none
    else pure (some ⟨name, pos, ret, st, com, "espn"⟩)

/-- One table of _parse_espn_injuries (main.py 374-412): tables with no
headers or missing a wanted header are skipped entirely. -/
def parseEspnTable (t : Table) : Except PyError (List EspnRec) :=
  if t.headers.isEmpty then Except.ok []
  else if espnWanted.all (fun h => strMem h t.headers) then
    let iName := pyIndexOf t.headers "NAME"
    let iPos := pyIndexOf t.headers "POS"
    let iRet := pyIndexOf t.headers "EST. RETURN DATE"
    let iSt := pyIndexOf t.headers "STATUS"
    let iCom := pyIndexOf t.headers "COMMENT"
    t.rows.foldlM (fun acc cells => do
      match ← parseEspnRow iName iPos iRet iSt iCom cells with
      | some r => pure (acc ++ [r])
      | none => pure acc) []
  else Except.ok []

/-- _parse_espn_injuries (main.py 369-414) on the extracted tables of a page. -/
def parseEspn (tables : List Table) : Except PyError (List EspnRec) :=
  tables.foldlM (fun acc t => do pure (acc ++ (← parseEspnTable t))) []

/-- _clean_cbs_player_name helper (main.py 613-617): index of the first
character that is uppercase and preceded by a lowercase character. -/
def findCaseSplit : List Char → Nat → Option Nat
  | c1 :: c2 :: rest, i =>
    if c1.isLower && c2.isUpper then some (i + 1)
    else findCaseSplit (c2 :: rest) (i + 1)
  | _, _ => none

/-- _clean_cbs_player_name (main.py 611-624): strip, keep the suffix from the
first lowercase-to-uppercase transition when one exists and it is non-blank,
otherwise return the stripped input. -/
def cleanCbsPlayerName (raw : String) : String :=
  let s := pyTrim raw
  match findCaseSplit s.data 0 with
  | some i =>
    let full := pyTrim (String.mk (s.data.drop i))
    if full = "" then s else full
  | none => s

/-- The header names _parse_cbs_injuries requires (main.py line 637). -/
def cbsWanted : List String := ["Player", "Position", "Updated", "Injury", "Injury Status"]

/-- One row of a CBS table (main.py 647-671). -/
def parseCbsRow (iName iPos iUpd iInj iSt : Nat) (cells : List String) :
    Except PyError (Option CbsRec) :=
  if cells.length < 5 then Except.ok none
  else do
    let rawName ← pyGet cells iName
    let name := cleanCbsPlayerName rawName
    let pos ← pyGet cells iPos
    let upd ← pyGet cells iUpd
    let inj ← pyGet cells iInj
    let st ← pyGet cells iSt
    if name = "" || pyUpper name = "PLAYER" then pure none
    else pure (some ⟨name, pos, upd, inj, st, "cbs"⟩)

/-- One table of _parse_cbs_injuries (main.py 631-671). -/
def parseCbsTable (t : Table) : Except PyError (List CbsRec) :=
  if t.headers.isEmpty then Except.ok []
  else if cbsWanted.all (fun h => strMem h t.headers) then
    let iName := pyIndexOf t.headers "Player"
    let iPos := pyIndexOf t.headers "Position"
    let iUpd := pyIndexOf t.headers "Updated"
    let iInj := pyIndexOf t.headers "Injury"
    let iSt := pyIndexOf t.headers "Injury Status"
    t.rows.foldlM (fun acc cells => do
      match ← parseCbsRow iName iPos iUpd iInj iSt cells with
      | some r => pure (acc ++ [r])
      | none => pure acc) []
  else Except.ok []

/-- _parse_cbs_injuries (main.py 627-673) on the extracted tables of a page. -/
def parseCbs (tables : List Table) : Except PyError (List CbsRec) :=
  tables.foldlM (fun acc t => do pure (acc ++ (← parseCbsTable t))) []

/-- header_tokens of _parse_nbc_injuries (main.py 487). -/
def nbcHeaderTokens : List String := ["PLAYER", "Pos", "POS", "Date", "DATE", "Injury", "INJURY"]

/-- The position whitelist of _parse_nbc_injuries (main.py 488-492). -/
def nbcPositions : List String :=
  ["PG", "SG", "SF", "PF", "C", "G", "F", "G-F", "F-G", "G/F", "F/C", "C/F"]

/-- The non-blank lines of the flattened page text (main.py 474-475). -/
def nbcLines (text : String) : List String :=
  (pySplitOn '\n' text).filter (fun l => pyTrim l ≠ "")

/-- lines[i] with an irrelevant default (all uses are bounds-guarded in the
source). -/
def lineAt (lines : List String) (i : Nat) : String := (lines.get? i).getD ""

/-- looks_like_team_header (main.py 497-511). -/
def looksLikeTeamHeader (lines : List String) (idx : Nat) : Bool :=
  if idx + 4 ≥ lines.length then false
  else
    let l0 := pyTrim (lineAt lines idx)
    let l1 := pyTrim (lineAt lines (idx + 1))
    let l2 := pyTrim (lineAt lines (idx + 2))
    let l3 := pyTrim (lineAt lines (idx + 3))
    let l4 := pyTrim (lineAt lines (idx + 4))
    (!(strMem l0 nbcHeaderTokens)) &&
    (l1 = "PLAYER" || l1 = "Player") &&
    (l2 = "POS" || l2 = "Pos") &&
    (l3 = "DATE" || l3 = "Date") &&
    (l4 = "INJURY" || l4 = "Injury")

/-- The while loop of _parse_nbc_injuries (main.py 513-556). -/
def nbcScan (lines : List String) (i : Nat) (currentTeam : Option String) : List NbcRec :=
  if _hlt : i < lines.length - 5 then
    if looksLikeTeamHeader lines i then
      nbcScan lines (i + 5) (some (pyTrim (lineAt lines i)))
    else
      match currentTeam with
      | none => nbcScan lines (i + 1) none
      | some team =>
        if i + 4 ≥ lines.length then []
        else
          let name := pyTrim (lineAt lines i)
          let pos := pyTrim (lineAt lines (i + 1))
          let date := pyTrim (lineAt lines (i + 2))
          let injury := pyTrim (lineAt lines (i + 3))
          let desc := pyTrim (lineAt lines (i + 4))
          if strMem name nbcHeaderTokens || strMem pos nbcHeaderTokens ||
             strMem date nbcHeaderTokens || strMem injury nbcHeaderTokens then
            nbcScan lines (i + 1) (some team)
          else if !(strMem pos nbcPositions) then
            nbcScan lines (i + 1) (some team)
          else
            ⟨name, pos, date, injury, desc, team, "nbc"⟩ :: nbcScan lines (i + 5) (some team)
  else []
termination_by lines.length - i
decreasing_by all_goals omega

/-- _parse_nbc_injuries (main.py 466-558) on the flattened visible text of the
page: locate the literal "Injuries" (or "INJURIES") line, then run the
line-scan; a page without the marker yields no records. -/
def parseNbc (text : String) : List NbcRec :=
  let lines := nbcLines text
  match idxOf (fun l => l = "Injuries") lines with
  | some s => nbcScan lines s none
  | none =>
    match idxOf (fun l => l = "INJURIES") lines with
    | some s => nbcScan lines s none
    | none => []

/-- A team object as returned by the balldontlie API (dict keys as Options). -/
structure TeamD where
  id : Option Nat
  full_name : Option String
  name : Option String
  abbreviation : Option String
  city : Option String
deriving DecidableEq

def emptyTeam : TeamD := ⟨none, none, none, none, none⟩

/-- A player object as returned by the balldontlie API. -/
structure BdlPlayer where
  id : Option Nat
  full_name : Option String
  first_name : Option String
  last_name : Option String
  position : Option String
  team : Option TeamD
deriving DecidableEq

def emptyBdlPlayer : BdlPlayer := ⟨none, none, none, none, none, none⟩

/-- Python (a or b) for optional strings: None and "" are falsy. -/
def pyOrS (a b : Option String) : Option String :=
  match a with
  | some s => if s = "" then b else some s
  | none => b

/-- _normalize_full_name (main.py 702-708): use full_name unless falsy, else
the stripped first/last names joined; then lower-case and collapse runs of
whitespace. -/
def normalizeFullName (p : BdlPlayer) : String :=
  let fallback := pyTrim (pyTrim ((p.first_name.getD "")) ++ " " ++ pyTrim ((p.last_name.getD "")))
  let full :=
    match p.full_name with
    | some s => if s = "" then fallback else s
    | none => fallback
  pyNormSpace full

/-- Accumulation step of _search_bdl_best_player (main.py 733-738): state is
(seen player ids, accumulated players); a player whose id was already seen is
skipped, otherwise it is appended. -/
def bdlAdd (st : List (Option Nat) × List BdlPlayer) (p : BdlPlayer) :
    List (Option Nat) × List BdlPlayer :=
  if p.id ∈ st.1 then st else (st.1 ++ [p.id], st.2 ++ [p])

/-- The exact-match test of _search_bdl_best_player (main.py 741). -/
def isExactFor (queryNorm : String) (p : BdlPlayer) : Bool :=
  normalizeFullName p = queryNorm

/-- The term loop of _search_bdl_best_player (main.py 728-746): for each term
in order, query the search endpoint, fold the results into the deduplicated
accumulator, then scan this term's raw results for the first exact normalized
match; stop at the first term that produced one.  The third component records
every term actually sent to the search endpoint. -/
def bdlLoop (search : String → List BdlPlayer) (queryNorm : String) :
    List String → List (Option Nat) × List BdlPlayer → List String →
    Option BdlPlayer × List BdlPlayer × List String
  | [], st, calls => (none, st.2, calls)
  | t :: ts, st, calls =>
    let data := search t
    let st2 := data.foldl bdlAdd st
    match data.find? (isExactFor queryNorm) with
    | some p => (some p, st2.2, calls ++ [t])
    | none => bdlLoop search queryNorm ts st2 (calls ++ [t])

/-- _search_bdl_best_player (main.py 711-751).  The /v1/players search
endpoint is an oracle from the term to the returned data list.  Returns
(best player, accumulated players, terms actually queried); the Python
function returns the first two, and the third is the network-call trace. -/
def searchBdlBestPlayer (search : String → List BdlPlayer) (rawName : String) :
    Option BdlPlayer × List BdlPlayer × List String :=
  let name := pyTrim rawName
  if name = "" then (none, [], [])
  else
    let tokens := pySplit name
    let candidates :=
      [name] ++ (if 1 ≤ tokens.length then [tokens.getLastD ""] else [])
             ++ (if 2 ≤ tokens.length then [tokens.headD ""] else [])
    let r := bdlLoop search (pyNormSpace name) candidates ([], []) []
    ((match r.1 with
      | some p => some p
      | none => r.2.1.head?), r.2.1, r.2.2)

/-- The candidate term list exactly as claim C6 words it: the full query, then
the last token when the query has at least one token, then the first token
when it has at least two. -/
def termListSpec (q : String) : List String :=
  let s := pyTrim q
  let tokens := pySplit s
  [s] ++ (if 1 ≤ tokens.length then [tokens.getLastD ""] else [])
       ++ (if 2 ≤ tokens.length then [tokens.headD ""] else [])

/-- Best-player selection as claim C6 words it: the first player, across the
terms' result lists taken in order, whose normalized full name equals the
normalized query; if none, the first returned player; if none at all, none. -/
def bdlBestSpec (search : String → List BdlPlayer) (q : String) : Option BdlPlayer :=
  let results := ((termListSpec q).map search).flatten
  match results.find? (isExactFor (pyNormSpace (pyTrim q))) with
  | some p => some p
  | none => results.head?

/-- An item of the /v1/player_injuries response data. -/
structure BdlItem where
  player : Option BdlPlayer
  status : Option String
  injury : Option String
  description : Option String
  return_date : Option String
  updated_at : Option String
  created_at : Option String
deriving DecidableEq

/-- The simplified injury record built by _map_balldontlie_injury. -/
structure BdlInjury where
  player_id : Option Nat
  player_name : Option String
  team_id : Option Nat
  team_name : Option String
  status : Option String
  injury : Option String
  description : Option String
  return_date : Option String
  last_update : Option String
  source : String
deriving DecidableEq

/-- _map_balldontlie_injury (main.py 129-152). -/
def mapBdlInjury (item : BdlItem) : BdlInjury :=
  let player := item.player.getD emptyBdlPlayer
  let team := player.team.getD emptyTeam
  let fullName : Option String :=
    match pyOrS player.full_name none with
    | some s => some s
    | none =>
      let s := pyTrim ((player.first_name.getD "") ++ " " ++ (player.last_name.getD ""))
      if s = "" then none else some s
  { player_id := player.id
  , player_name := fullName
  , team_id := team.id
  , team_name := pyOrS team.full_name team.name
  , status := item.status
  , injury := item.injury
  , description := item.description
  , return_date := item.return_date
  , last_update := pyOrS item.updated_at item.created_at
  , source := "balldontlie" }

/-- The local filter-and-map of injuries_balldontlie_by_player_id
(main.py 258-265): keep items whose nested player id equals the requested id
(None equals None, as in Python), then simplify each. -/
def bdlInjuriesForPid (data : List BdlItem) (pid : Option Nat) : List BdlInjury :=
  (data.filter (fun item => (item.player.getD emptyBdlPlayer).id = pid)).map mapBdlInjury

/-- _compute_aggregated_status (main.py 758-779): sources_with_info lists the
source names with a non-empty match list in the fixed order balldontlie,
espn, cbs, nbc; status is "flagged" exactly when that list is non-empty. -/
def computeAggregatedStatus {α β γ δ : Type} (bdl : List α) (espn : List β)
    (cbs : List γ) (nbc : List δ) : String × List String :=
  let s :=
    (if bdl.isEmpty then [] else ["balldontlie"]) ++
    (if espn.isEmpty then [] else ["espn"]) ++
    (if cbs.isEmpty then [] else ["cbs"]) ++
    (if nbc.isEmpty then [] else ["nbc"])
  ((if s.isEmpty then "clear" else "flagged"), s)

/-- Outcome of one requests.get call: a response with HTTP status, raw text
and (abstractly) the extracted body, or a network-level exception. -/
inductive FetchResult (α : Type) where
  | response (status : Nat) (text : String) (body : α)
  | netError (msg : String)

/-- The shared shape of _fetch_espn_html, _fetch_nbc_html and _fetch_cbs_html
(main.py 350-366, 447-463, 592-608): a network exception becomes HTTP 502,
a non-200 status becomes an HTTPException with that status and a detail built
from the first 200 characters of the response text, and a 200 response yields
the page. -/
def fetchHtml {α : Type} (srcName : String) (r : FetchResult α) : Except PyError α :=
  match r with
  | FetchResult.netError msg =>
    Except.error (PyError.http 502 ("Error calling " ++ srcName ++ ": " ++ msg))
  | FetchResult.response status text body =>
    if status ≠ 200 then
      Except.error (PyError.http status (srcName ++ " error: " ++ pyTakeStr 200 text))
    else Except.ok body

/-- The team part of the matched-player info built in injuries_by_player. -/
structure TeamInfoOut where
  id : Option Nat
  name : Option String
  abbreviation : Option String
  city : Option String
deriving DecidableEq

/-- The matched-player info built in injuries_by_player (main.py 827-839). -/
structure PlayerInfoOut where
  id : Option Nat
  full_name : String
  first_name : Option String
  last_name : Option String
  position : Option String
  team : TeamInfoOut
deriving DecidableEq

/-- Assembly of bdl_player_info (main.py 817-839). -/
def mkBdlPlayerInfo (bp : BdlPlayer) : PlayerInfoOut :=
  let team := bp.team.getD emptyTeam
  let fullName :=
    match pyOrS bp.full_name none with
    | some s => s
    | none => pyTrim (pyTrim (bp.first_name.getD "") ++ " " ++ pyTrim (bp.last_name.getD ""))
  { id := bp.id
  , full_name := fullName
  , first_name := bp.first_name
  , last_name := bp.last_name
  , position := bp.position
  , team := ⟨team.id, pyOrS team.full_name team.name, team.abbreviation, team.city⟩ }

/-- The response body of /injuries/by-player (main.py 851-873), flattened. -/
structure ByPlayerOutput where
  player_query : String
  aggregated_status : String
  sources_with_info : List String
  bdl_matched_player : Option PlayerInfoOut
  bdl_raw_search_count : Nat
  bdl_injuries : List BdlInjury
  espn_injuries : List EspnRec
  espn_total : Nat
  nbc_injuries : List NbcRec
  nbc_total : Nat
  cbs_injuries : List CbsRec
  cbs_total : Nat
deriving DecidableEq

/-- injuries_by_player (main.py 782-873).  The three HTML fetches are explicit
FetchResult values (ESPN, then NBC, then CBS, in source order — an error at
any stage aborts the whole request); the balldontlie search endpoint is an
oracle and the /v1/player_injuries data for the by-player-id call is passed
as a list (their own network-failure paths are not at issue in the claims). -/
def injuriesByPlayer (name : String)
    (espnResp : FetchResult (List Table)) (nbcResp : FetchResult String)
    (cbsResp : FetchResult (List Table))
    (search : String → List BdlPlayer) (bdlData : List BdlItem) :
    Except PyError ByPlayerOutput :=
  let query := pyTrim name
  if query = "" then Except.error (PyError.http 400 "name parameter must not be empty")
  else
    let queryLower := pyLower query
    match fetchHtml "ESPN" espnResp with
    | Except.error e => Except.error e
    | Except.ok espnTables =>
      match parseEspn espnTables with
      | Except.error e => Except.error e
      | Except.ok espnAll =>
        let espnMatches := espnAll.filter (fun it => pyIn queryLower (pyLower it.player_name))
        match fetchHtml "NBC" nbcResp with
        | Except.error e => Except.error e
        | Except.ok nbcText =>
          let nbcAll := parseNbc nbcText
          let nbcMatches := nbcAll.filter (fun it => pyIn queryLower (pyLower it.player_name))
          match fetchHtml "CBS" cbsResp with
          | Except.error e => Except.error e
          | Except.ok cbsTables =>
            match parseCbs cbsTables with
            | Except.error e => Except.error e
            | Except.ok cbsAll =>
              let cbsMatches := cbsAll.filter (fun it => pyIn queryLower (pyLower it.player_name))
              let r := searchBdlBestPlayer search query
              let bdlInjuries :=
                match r.1 with
                | none => []
                | some bp => bdlInjuriesForPid bdlData bp.id
              let bdlInfo :=
                match r.1 with
                | none => none
                | some bp => some (mkBdlPlayerInfo bp)
              let aggregated := computeAggregatedStatus bdlInjuries espnMatches cbsMatches nbcMatches
              Except.ok
                { player_query := query
                , aggregated_status := aggregated.1
                , sources_with_info := aggregated.2
                , bdl_matched_player := bdlInfo
                , bdl_raw_search_count := r.2.1.length
                , bdl_injuries := bdlInjuries
                , espn_injuries := espnMatches
                , espn_total := espnAll.length
                , nbc_injuries := nbcMatches
                , nbc_total := nbcAll.length
                , cbs_injuries := cbsMatches
                , cbs_total := cbsAll.length }

/-- Projection used to state facts about the NBC section of the output. -/
def nbcInjuriesOf (r : Except PyError ByPlayerOutput) : Option (List NbcRec) :=
  match r with
  | Except.ok o => some o.nbc_injuries
  | Except.error _ => none

/-- Modelled from the spec: the name-search NBC strategy (spec section 4.2 and
section 8), which is absent from src/main.py — "locates a player's name as a
substring within the flattened page text and collects up to N subsequent
non-empty lines (stopping at a Load More sentinel) as a free-text summary";
N is taken to be 3.  Returns (headline, summary) pairs. -/
def nbcNameSearch (text query : String) : List (String × String) :=
  let lines := nbcLines text
  match idxOf (fun l => pyIn (pyLower query) (pyLower l)) lines with
  | none => []
  | some i =>
    let headline := lineAt lines i
    let rest := ((lines.drop (i + 1)).takeWhile (fun l => l ≠ "Load More")).take 3
    [(headline, pyJoin " " rest)]

/-- A player record carrying only a full name (for concrete instances). -/
def mkNamed (n : String) : BdlPlayer := ⟨none, some n, none, none, none, none⟩

def pOther : BdlPlayer := ⟨some 1, some "lebron james", none, none, none, none⟩

def pBron : BdlPlayer := ⟨some 2, some "Bron James", none, none, none, none⟩

/-- A concrete search oracle: the full-query term returns only a non-exact
player, the surname term returns that player again plus the exact match. -/
def searchEx6 : String → List BdlPlayer := fun t =>
  if t = "bron james" then [pOther]
  else if t = "james" then [pOther, pBron]
  else []

def pLi : BdlPlayer := ⟨some 7, some "li", none, none, none, none⟩

/-- A concrete search oracle returning the same player for every term. -/
def searchEx10 : String → List BdlPlayer := fun _ => [pLi]

/-- Flattened text of a player-news style page (the spec section 8 example):
no literal "Injuries" marker line, so the line-scan parser finds nothing. -/
def c7PageText : String :=
  "Player News\nJayson Tatum ruled out\nKnee soreness\nLoad More\nFooter"

/-- A table whose required ESPN headers all occur, but at column indexes 5-9,
with a body row of exactly 5 cells. -/
def c8BadTable : Table :=
  ⟨["A", "B", "C", "D", "E", "NAME", "POS", "EST. RETURN DATE", "STATUS", "COMMENT"],
   [["x1", "x2", "x3", "x4", "x5"]]⟩

/-- The CBS analogue of c8BadTable. -/
def c8BadCbsTable : Table :=
  ⟨["A", "B", "C", "D", "E", "Player", "Position", "Updated", "Injury", "Injury Status"],
   [["x1", "x2", "x3", "x4", "x5"]]⟩

/-! Helper lemmas about the resolver loop. -/

theorem bdlLoop_best (search : String → List BdlPlayer) (qn : String) (ts : List String) :
    ∀ st calls, (bdlLoop search qn ts st calls).1 =
      ((ts.map search).flatten).find? (isExactFor qn) := by
  induction ts with
  | nil => intro st calls; simp [bdlLoop]
  | cons t ts ih =>
    intro st calls
    simp only [bdlLoop, List.map_cons, List.flatten_cons, List.find?_append]
    cases hf : (search t).find? (isExactFor qn) with
    | some p => simp [hf]
    | none => simp [hf, ih]

theorem foldl_bdlAdd_ext (data : List BdlPlayer) :
    ∀ st : List (Option Nat) × List BdlPlayer,
      ∃ ext, (data.foldl bdlAdd st).2 = st.2 ++ ext := by
  induction data with
  | nil => intro st; exact ⟨[], by simp⟩
  | cons p ps ih =>
    intro st
    rcases ih (bdlAdd st p) with ⟨ext, hext⟩
    by_cases h : p.id ∈ st.1
    · exact ⟨ext, by simpa [bdlAdd, h] using hext⟩
    · refine ⟨[p] ++ ext, ?_⟩
      simp only [List.foldl_cons]
      rw [hext]
      simp [bdlAdd, h]

theorem bdlLoop_found_ext (search : String → List BdlPlayer) (qn : String) (ts : List String) :
    ∀ st calls, ∃ ext, (bdlLoop search qn ts st calls).2.1 = st.2 ++ ext := by
  induction ts with
  | nil => intro st calls; exact ⟨[], by simp [bdlLoop]⟩
  | cons t ts ih =>
    intro st calls
    rcases foldl_bdlAdd_ext (search t) st with ⟨e1, he1⟩
    cases hf : (search t).find? (isExactFor qn) with
    | some p => exact ⟨e1, by simp [bdlLoop, hf, he1]⟩
    | none =>
      rcases ih ((search t).foldl bdlAdd st) (calls ++ [t]) with ⟨e2, he2⟩
      exact ⟨e1 ++ e2, by simp [bdlLoop, hf, he2, he1]⟩

theorem bdlLoop_head (search : String → List BdlPlayer) (qn : String) :
    ∀ (ts : List String) (calls : List String),
      (bdlLoop search qn ts ([], []) calls).2.1.head? = ((ts.map search).flatten).head? := by
  intro ts
  induction ts with
  | nil => intro calls; simp [bdlLoop]
  | cons t ts ih =>
    intro calls
    cases hd : search t with
    | nil =>
      have hf : (search t).find? (isExactFor qn) = none := by simp [hd]
      simp [bdlLoop, hd, hf, ih]
    | cons p ps =>
      have hadd : bdlAdd ([], []) p = ([p.id], [p]) := by simp [bdlAdd]
      rcases foldl_bdlAdd_ext ps ([p.id], [p]) with ⟨ext, hext⟩
      cases hf : (search t).find? (isExactFor qn) with
      | some q =>
        rw [hd] at hf
        simp [bdlLoop, hd, hf, hadd, hext]
      | none =>
        rw [hd] at hf
        rcases bdlLoop_found_ext search qn ts (ps.foldl bdlAdd ([p.id], [p])) (calls ++ [t])
          with ⟨ext2, hext2⟩
        simp [bdlLoop, hd, hf, hadd, hext2, hext]

theorem bdlLoop_calls (search : String → List BdlPlayer) (qn : String) (ts : List String) :
    ∀ st calls, ∃ k, (bdlLoop search qn ts st calls).2.2 = calls ++ ts.take k := by
  induction ts with
  | nil => intro st calls; exact ⟨0, by simp [bdlLoop]⟩
  | cons t ts ih =>
    intro st calls
    cases hf : (search t).find? (isExactFor qn) with
    | some p => exact ⟨1, by simp [bdlLoop, hf]⟩
    | none =>
      rcases ih ((search t).foldl bdlAdd st) (calls ++ [t]) with ⟨k, hk⟩
      exact ⟨k + 1, by simp [bdlLoop, hf, hk, List.take_succ_cons]⟩

theorem searchBdl_spec_core (search : String → List BdlPlayer) (qn : String) (cands : List String) :
    (match (bdlLoop search qn cands ([], []) []).1 with
     | some p => some p
     | none => (bdlLoop search qn cands ([], []) []).2.1.head?) =
    (match ((cands.map search).flatten).find? (isExactFor qn) with
     | some p => some p
     | none => ((cands.map search).flatten).head?) := by
  have hbest := bdlLoop_best search qn cands ([], []) []
  cases hb : (bdlLoop search qn cands ([], []) []).1 with
  | some p =>
    have hf : ((cands.map search).flatten).find? (isExactFor qn) = some p := by
      rw [← hbest, hb]
    simp [hb, hf]
  | none =>
    have hf : ((cands.map search).flatten).find? (isExactFor qn) = none := by
      rw [← hbest, hb]
    have hh := bdlLoop_head search qn cands []
    simp [hb, hf, hh]

theorem bdlAdd_inv (st : List (Option Nat) × List BdlPlayer) (p : BdlPlayer)
    (h1 : (st.2.map BdlPlayer.id).Nodup)
    (h2 : ∀ i, i ∈ st.1 ↔ i ∈ st.2.map BdlPlayer.id) :
    ((bdlAdd st p).2.map BdlPlayer.id).Nodup ∧
      (∀ i, i ∈ (bdlAdd st p).1 ↔ i ∈ (bdlAdd st p).2.map BdlPlayer.id) := by
  by_cases h : p.id ∈ st.1
  · simp only [bdlAdd, if_pos h]
    exact ⟨h1, h2⟩
  · have hnm : p.id ∉ st.2.map BdlPlayer.id := fun hc => h ((h2 p.id).2 hc)
    simp only [bdlAdd, if_neg h]
    constructor
    · simp [List.nodup_append, h1, hnm]
    · intro i
      simp only [List.map_append, List.mem_append, List.map_cons, List.map_nil,
        List.mem_singleton, h2 i]

theorem foldl_bdlAdd_inv (data : List BdlPlayer) :
    ∀ st : List (Option Nat) × List BdlPlayer,
      (st.2.map BdlPlayer.id).Nodup →
      (∀ i, i ∈ st.1 ↔ i ∈ st.2.map BdlPlayer.id) →
      ((data.foldl bdlAdd st).2.map BdlPlayer.id).Nodup ∧
        (∀ i, i ∈ (data.foldl bdlAdd st).1 ↔ i ∈ (data.foldl bdlAdd st).2.map BdlPlayer.id) := by
  induction data with
  | nil => intro st h1 h2; exact ⟨h1, h2⟩
  | cons p ps ih =>
    intro st h1 h2
    rcases bdlAdd_inv st p h1 h2 with ⟨h1', h2'⟩
    simpa [List.foldl_cons] using ih (bdlAdd st p) h1' h2'

theorem bdlAdd_seen_mono (st : List (Option Nat) × List BdlPlayer) (q : BdlPlayer)
    (i : Option Nat) (h : i ∈ st.1) : i ∈ (bdlAdd st q).1 := by
  by_cases hq : q.id ∈ st.1 <;> simp [bdlAdd, hq, h]

theorem foldl_bdlAdd_seen_mono (data : List BdlPlayer) :
    ∀ (st : List (Option Nat) × List BdlPlayer) (i : Option Nat),
      i ∈ st.1 → i ∈ (data.foldl bdlAdd st).1 := by
  induction data with
  | nil => intro st i h; exact h
  | cons p ps ih =>
    intro st i h
    simpa [List.foldl_cons] using ih (bdlAdd st p) i (bdlAdd_seen_mono st p i h)

theorem mem_foldl_bdlAdd_seen (data : List BdlPlayer) :
    ∀ (st : List (Option Nat) × List BdlPlayer) (p : BdlPlayer),
      p ∈ data → p.id ∈ (data.foldl bdlAdd st).1 := by
  induction data with
  | nil => intro st p h; cases h
  | cons q ps ih =>
    intro st p h
    rcases List.mem_cons.1 h with rfl | hmem
    · have hq : p.id ∈ (bdlAdd st p).1 := by
        by_cases hq : p.id ∈ st.1 <;> simp [bdlAdd, hq]
      simpa [List.foldl_cons] using foldl_bdlAdd_seen_mono ps (bdlAdd st p) p.id hq
    · simpa [List.foldl_cons] using ih (bdlAdd st q) p hmem

theorem bdlLoop_inv (search : String → List BdlPlayer) (qn : String) (ts : List String) :
    ∀ st calls,
      (st.2.map BdlPlayer.id).Nodup →
      (∀ i, i ∈ st.1 ↔ i ∈ st.2.map BdlPlayer.id) →
      ((bdlLoop search qn ts st calls).2.1.map BdlPlayer.id).Nodup ∧
        (∀ p, (bdlLoop search qn ts st calls).1 = some p →
          p.id ∈ (bdlLoop search qn ts st calls).2.1.map BdlPlayer.id) := by
  induction ts with
  | nil =>
    intro st calls h1 h2
    refine ⟨by simpa [bdlLoop] using h1, ?_⟩
    intro p hp
    simp [bdlLoop] at hp
  | cons t ts ih =>
    intro st calls h1 h2
    rcases foldl_bdlAdd_inv (search t) st h1 h2 with ⟨h1', h2'⟩
    cases hf : (search t).find? (isExactFor qn) with
    | some p =>
      have hpmem : p ∈ search t := List.mem_of_find?_eq_some hf
      have hseen : p.id ∈ ((search t).foldl bdlAdd st).1 :=
        mem_foldl_bdlAdd_seen (search t) st p hpmem
      have hfoundid : p.id ∈ ((search t).foldl bdlAdd st).2.map BdlPlayer.id :=
        (h2' p.id).1 hseen
      constructor
      · simpa [bdlLoop, hf] using h1'
      · intro p' hp'
        simp only [bdlLoop, hf] at hp' ⊢
        cases hp'
        simpa using hfoundid
    | none =>
      rcases ih ((search t).foldl bdlAdd st) (calls ++ [t]) h1' h2' with ⟨ha, hb⟩
      constructor
      · simpa [bdlLoop, hf] using ha
      · intro p hp
        simp only [bdlLoop, hf] at hp ⊢
        exact hb p hp

/-! Claim theorems. -/

/-- C1 counterexample: a non-200 response from the NBC source does NOT yield
an empty result for that source; _fetch_nbc_html raises an HTTPException
carrying the upstream status, and the whole injuries_by_player aggregation
fails with it (here: status 500, page text "boom", for the query "lebron"
with an ESPN page that parses to no tables and any CBS page). -/
theorem c1_counterexample :
    fetchHtml "NBC" (FetchResult.response 500 "boom" ("" : String)) =
      Except.error (PyError.http 500 "NBC error: boom") ∧
    injuriesByPlayer "lebron" (FetchResult.response 200 "" [])
      (FetchResult.response 500 "boom" "") (FetchResult.response 200 "" [])
      (fun _ => []) [] = Except.error (PyError.http 500 "NBC error: boom") :=
  ⟨rfl, rfl⟩

/-- C1 (amended): for every non-200 HTTP response from the NBC source, the
aggregation raises: provided the query is non-empty and the ESPN stage
succeeded, injuries_by_player propagates an HTTPException whose status is the
NBC upstream status and whose detail embeds the first 200 characters of the
NBC response text — NBC is treated exactly like the strict sources, and the
aggregation as a whole fails because of it. -/
theorem c1_amended (name textE nbcRaw nbcBody : String) (tablesE : List Table)
    (espnAll : List EspnRec) (nbcStatus : Nat) (cbsResp : FetchResult (List Table))
    (search : String → List BdlPlayer) (bdlData : List BdlItem)
    (h1 : pyTrim name ≠ "") (h2 : parseEspn tablesE = Except.ok espnAll)
    (h3 : nbcStatus ≠ 200) :
    injuriesByPlayer name (FetchResult.response 200 textE tablesE)
      (FetchResult.response nbcStatus nbcRaw nbcBody) cbsResp search bdlData
      = Except.error (PyError.http nbcStatus ("NBC error: " ++ pyTakeStr 200 nbcRaw)) := by
  simp [injuriesByPlayer, fetchHtml, h1, h2, h3]

/-- C1 witness: the amended theorem applied at a concrete non-200 NBC
response. -/
theorem c1_amended_witness :
    (pyTrim "x" ≠ "" ∧ parseEspn [] = Except.ok ([] : List EspnRec) ∧ (404 : Nat) ≠ 200) ∧
    injuriesByPlayer "x" (FetchResult.response 200 "" [])
      (FetchResult.response 404 "nope" "") (FetchResult.response 200 "" [])
      (fun _ => []) []
      = Except.error (PyError.http 404 ("NBC error: " ++ pyTakeStr 200 "nope")) :=
  ⟨⟨by decide, rfl, by decide⟩,
   c1_amended "x" "" "nope" "" [] [] 404 (FetchResult.response 200 "" [])
     (fun _ => []) [] (by decide) rfl (by decide)⟩

/-- C2: for every combination of per-source match lists, the aggregated
status is "flagged" exactly when at least one source produced at least one
record (and "clear" otherwise), and sources_with_info is exactly the filter
of the fixed-order list [balldontlie, espn, cbs, nbc] down to the sources
with a non-empty list — independent of input order or recency. -/
theorem c2_aggregated_status {α β γ δ : Type} (bdl : List α) (espn : List β)
    (cbs : List γ) (nbc : List δ) :
    ((computeAggregatedStatus bdl espn cbs nbc).1 =
      if bdl.isEmpty && espn.isEmpty && cbs.isEmpty && nbc.isEmpty then "clear"
      else "flagged") ∧
    (computeAggregatedStatus bdl espn cbs nbc).2 =
      ["balldontlie", "espn", "cbs", "nbc"].filter (fun n =>
        (n == "balldontlie" && !bdl.isEmpty) || (n == "espn" && !espn.isEmpty) ||
        (n == "cbs" && !cbs.isEmpty) || (n == "nbc" && !nbc.isEmpty)) := by
  cases bdl <;> cases espn <;> cases cbs <;> cases nbc <;>
    simp [computeAggregatedStatus, List.filter]

/-- C3 counterexample: the CBS name-repair function does NOT map
"BOSJaylen Brown" to "Jaylen Brown" — an all-caps team prefix never creates a
lowercase-to-uppercase transition, so the function returns the input
unchanged. -/
theorem c3_counterexample :
    cleanCbsPlayerName "BOSJaylen Brown" = "BOSJaylen Brown" ∧
    cleanCbsPlayerName "BOSJaylen Brown" ≠ "Jaylen Brown" := by
  constructor
  · rfl
  · decide

/-- C3 (amended): "BOSJaylen Brown" contains no lowercase-to-uppercase
transition (because the prefixed team abbreviation is all-caps), and every
already-stripped input with no lowercase-to-uppercase letter transition is
returned by the CBS name-repair function unchanged. -/
theorem c3_amended (s : String) (h1 : pyTrim s = s)
    (h2 : findCaseSplit s.data 0 = none) : cleanCbsPlayerName s = s := by
  simp only [cleanCbsPlayerName, h1, h2]

/-- C3 witness: the amended theorem applied at "BOSJaylen Brown" itself. -/
theorem c3_amended_witness :
    (pyTrim "BOSJaylen Brown" = "BOSJaylen Brown" ∧
      findCaseSplit "BOSJaylen Brown".data 0 = none) ∧
    cleanCbsPlayerName "BOSJaylen Brown" = "BOSJaylen Brown" :=
  ⟨⟨by decide, by decide⟩, c3_amended "BOSJaylen Brown" (by decide) (by decide)⟩

/-- C4 counterexample: the matching normalization is NOT diacritic-
insensitive — a player whose full name is "Nikola Jokić" does not normalize
to the same string as the query "nikola jokic", because the code only
lower-cases and collapses whitespace and strips no combining marks. -/
theorem c4_counterexample :
    normalizeFullName (mkNamed "Nikola Jokić") ≠ pyNormSpace "nikola jokic" := by
  decide

/-- C4 (amended): the matching normalization is case-insensitive (on ASCII)
and whitespace-collapsing but diacritic-sensitive: "NIKOLA JOKIC" normalizes
equal to "nikola jokic", while "Nikola Jokić" normalizes to "nikola jokić",
which differs from "nikola jokic". -/
theorem c4_amended :
    normalizeFullName (mkNamed "NIKOLA JOKIC") = pyNormSpace "nikola jokic" ∧
    normalizeFullName (mkNamed "Nikola Jokić") = "nikola jokić" ∧
    pyNormSpace "nikola jokic" = "nikola jokic" := by
  refine ⟨rfl, rfl, rfl⟩

/-- C5 counterexample: the matching normalization is NOT suffix-insensitive —
appending the generational suffix "Jr." changes the normalized result,
because the code never drops suffix tokens. -/
theorem c5_counterexample :
    pyNormSpace "Bron James Jr." ≠ pyNormSpace "Bron James" := by decide

/-- C5 (amended): the normalization keeps generational suffix tokens:
"Bron James Jr." normalizes to "bron james jr." while "Bron James"
normalizes to "bron james", two different strings. -/
theorem c5_amended :
    pyNormSpace "Bron James Jr." = "bron james jr." ∧
    pyNormSpace "Bron James" = "bron james" ∧
    ("bron james jr." : String) ≠ "bron james" := by
  refine ⟨rfl, rfl, by decide⟩

/-- C6: for every non-empty query, the resolver's best player equals the
specification-side selection bdlBestSpec — the first player, across the
results of the candidate terms [full query, last token, first token when
present] queried in that order, whose normalized full name equals the
normalized query, even when earlier terms returned other (non-exact)
players; when no exact match exists, the first accumulated candidate, and
none when nothing was found.  Moreover the terms actually sent to the search
endpoint are an in-order prefix of that candidate term list. -/
theorem c6_resolver_best (search : String → List BdlPlayer) (q : String)
    (h : pyTrim q ≠ "") :
    (searchBdlBestPlayer search q).1 = bdlBestSpec search q ∧
    ∃ k, (searchBdlBestPlayer search q).2.2 = (termListSpec q).take k := by
  constructor
  · simp only [searchBdlBestPlayer, bdlBestSpec, if_neg h]
    exact searchBdl_spec_core search (pyNormSpace (pyTrim q)) (termListSpec q)
  · simp only [searchBdlBestPlayer, if_neg h]
    exact bdlLoop_calls search (pyNormSpace (pyTrim q)) (termListSpec q) ([], []) []

/-- C6 witness: the theorem applied to a concrete oracle where the full-query
term returns only a non-exact player and the surname term contains the exact
match. -/
theorem c6_resolver_best_witness :
    (pyTrim "bron james" ≠ "") ∧
    ((searchBdlBestPlayer searchEx6 "bron james").1 = bdlBestSpec searchEx6 "bron james" ∧
      ∃ k, (searchBdlBestPlayer searchEx6 "bron james").2.2 =
        (termListSpec "bron james").take k) :=
  ⟨by decide, c6_resolver_best searchEx6 "bron james" (by decide)⟩

/-- C7 counterexample: the aggregator does not run the name-search strategy:
on a player-news style page whose flattened text contains a line matching the
query (the spec section 8 example), the spec-modelled name-search strategy
yields a record, but injuries_by_player — which fetches the single fixed NBC
league page and applies the line-scan parser — reports an empty NBC section
(and its output carries no attempted-URL record at all). -/
theorem c7_counterexample :
    nbcNameSearch c7PageText "Jayson Tatum" =
      [("Jayson Tatum ruled out", "Knee soreness")] ∧
    nbcInjuriesOf (injuriesByPlayer "Jayson Tatum" (FetchResult.response 200 "" [])
      (FetchResult.response 200 "" c7PageText) (FetchResult.response 200 "" [])
      (fun _ => []) []) = some [] :=
  ⟨rfl, rfl⟩

/-- C7 (amended): the aggregator queries the unstructured-text source once,
with the single fixed NBC URL, runs the line-scan parser on the fetched page
text, and its NBC section is exactly the parsed records whose reported name
contains the query case-insensitively: a record is in the NBC section of the
output iff it is produced by the line-scan parse of that one page and matches
the query substring test; no candidate-URL list is consulted and nothing else
influences the NBC section. -/
theorem c7_amended (name textE textC nbcRaw nbcText : String)
    (tablesE tablesC : List Table) (espnAll : List EspnRec) (cbsAll : List CbsRec)
    (search : String → List BdlPlayer) (bdlData : List BdlItem)
    (h1 : pyTrim name ≠ "") (hE : parseEspn tablesE = Except.ok espnAll)
    (hC : parseCbs tablesC = Except.ok cbsAll) :
    nbcInjuriesOf (injuriesByPlayer name (FetchResult.response 200 textE tablesE)
        (FetchResult.response 200 nbcRaw nbcText)
        (FetchResult.response 200 textC tablesC) search bdlData) =
      some ((parseNbc nbcText).filter
        (fun it => pyIn (pyLower (pyTrim name)) (pyLower it.player_name))) ∧
    ∀ r, r ∈ (parseNbc nbcText).filter
        (fun it => pyIn (pyLower (pyTrim name)) (pyLower it.player_name)) ↔
      (r ∈ parseNbc nbcText ∧
        pyIn (pyLower (pyTrim name)) (pyLower r.player_name) = true) := by
  constructor
  · simp [nbcInjuriesOf, injuriesByPlayer, fetchHtml, h1, hE, hC]
  · intro r
    exact List.mem_filter

/-- C7 witness: the amended theorem applied at a concrete page carrying one
matching line-scan record. -/
theorem c7_amended_witness :
    (pyTrim "LeBron James" ≠ "" ∧ parseEspn [] = Except.ok ([] : List EspnRec) ∧
      parseCbs [] = Except.ok ([] : List CbsRec)) ∧
    (nbcInjuriesOf (injuriesByPlayer "LeBron James" (FetchResult.response 200 "" [])
        (FetchResult.response 200 "" "Injuries\nLakers\nPLAYER\nPOS\nDATE\nINJURY\nLeBron James\nF\nDec 1\nAnkle\nSore ankle\npad1\npad2\npad3\npad4\npad5")
        (FetchResult.response 200 "" []) (fun _ => []) []) =
      some ((parseNbc "Injuries\nLakers\nPLAYER\nPOS\nDATE\nINJURY\nLeBron James\nF\nDec 1\nAnkle\nSore ankle\npad1\npad2\npad3\npad4\npad5").filter
        (fun it => pyIn (pyLower (pyTrim "LeBron James")) (pyLower it.player_name))) ∧
      ∀ r, r ∈ (parseNbc "Injuries\nLakers\nPLAYER\nPOS\nDATE\nINJURY\nLeBron James\nF\nDec 1\nAnkle\nSore ankle\npad1\npad2\npad3\npad4\npad5").filter
          (fun it => pyIn (pyLower (pyTrim "LeBron James")) (pyLower it.player_name)) ↔
        (r ∈ parseNbc "Injuries\nLakers\nPLAYER\nPOS\nDATE\nINJURY\nLeBron James\nF\nDec 1\nAnkle\nSore ankle\npad1\npad2\npad3\npad4\npad5" ∧
          pyIn (pyLower (pyTrim "LeBron James")) (pyLower r.player_name) = true)) :=
  ⟨⟨by decide, rfl, rfl⟩,
   c7_amended "LeBron James" "" "" "" "Injuries\nLakers\nPLAYER\nPOS\nDATE\nINJURY\nLeBron James\nF\nDec 1\nAnkle\nSore ankle\npad1\npad2\npad3\npad4\npad5"
     [] [] [] [] (fun _ => []) [] (by decide) rfl rfl⟩

/-- C8: evaluation at the failing input — a page with a table that carries
all required headers (so it is not skipped) but at column indexes 5 through
9, together with a body row of exactly 5 cells, makes _parse_espn_injuries
(and likewise _parse_cbs_injuries) raise IndexError instead of returning a
list: the guard only requires 5 cells while the header indexes reach 9. -/
theorem c8_code_eval :
    parseEspn [c8BadTable] = Except.error PyError.indexError ∧
    parseCbs [c8BadCbsTable] = Except.error PyError.indexError ∧
    espnWanted.all (fun h => strMem h c8BadTable.headers) = true ∧
    cbsWanted.all (fun h => strMem h c8BadCbsTable.headers) = true :=
  ⟨rfl, rfl, rfl, rfl⟩

/-- C9: for every query that strips to the empty string, the resolver returns
(none, no candidates) and — third component — sends no term at all to the
search endpoint; this is an ordinary return, not an error. -/
theorem c9_empty_query (search : String → List BdlPlayer) (q : String)
    (h : pyTrim q = "") : searchBdlBestPlayer search q = (none, [], []) := by
  simp [searchBdlBestPlayer, h]

/-- C9 witness: the theorem applied at a whitespace-only query against an
oracle that would return a player for any term. -/
theorem c9_empty_query_witness :
    (pyTrim "   " = "") ∧ searchBdlBestPlayer searchEx10 "   " = (none, [], []) :=
  ⟨by decide, c9_empty_query searchEx10 "   " (by decide)⟩

theorem searchBdl_inv_core (search : String → List BdlPlayer) (qn : String)
    (cands : List String) :
    ((bdlLoop search qn cands ([], []) []).2.1.map BdlPlayer.id).Nodup ∧
    ∀ p, (match (bdlLoop search qn cands ([], []) []).1 with
          | some pp => some pp
          | none => (bdlLoop search qn cands ([], []) []).2.1.head?) = some p →
      p.id ∈ (bdlLoop search qn cands ([], []) []).2.1.map BdlPlayer.id := by
  have hinv := bdlLoop_inv search qn cands ([], []) [] (by simp) (by simp)
  refine ⟨hinv.1, ?_⟩
  intro p hp
  cases hb : (bdlLoop search qn cands ([], []) []).1 with
  | some p0 =>
    rw [hb] at hp
    have hp2 : some p0 = some p := hp
    cases hp2
    exact hinv.2 p hb
  | none =>
    rw [hb] at hp
    have hp2 : (bdlLoop search qn cands ([], []) []).2.1.head? = some p := hp
    cases hl : (bdlLoop search qn cands ([], []) []).2.1 with
    | nil => rw [hl] at hp2; cases hp2
    | cons a t =>
      rw [hl] at hp2
      simp only [List.head?_cons, Option.some.injEq] at hp2
      subst hp2
      simp

/-- C10: for every oracle and query, the candidate list returned by the
resolver has pairwise-distinct player ids (deduplicated across all search
terms), and whenever the returned best player is non-none its id occurs
among the ids of the returned candidates. -/
theorem c10_candidates_invariant (search : String → List BdlPlayer) (q : String) :
    (((searchBdlBestPlayer search q).2.1).map BdlPlayer.id).Nodup ∧
    ∀ p, (searchBdlBestPlayer search q).1 = some p →
      p.id ∈ ((searchBdlBestPlayer search q).2.1).map BdlPlayer.id := by
  by_cases h : pyTrim q = ""
  · constructor
    · simp [searchBdlBestPlayer, h]
    · intro p hp
      simp [searchBdlBestPlayer, h] at hp
  · have hcore := searchBdl_inv_core search (pyNormSpace (pyTrim q)) (termListSpec q)
    constructor
    · simp only [searchBdlBestPlayer, if_neg h]
      exact hcore.1
    · simp only [searchBdlBestPlayer, if_neg h]
      exact hcore.2

/-- C10 witness: the theorem applied at a concrete oracle whose single player
is the exact match, so best is that player and its id is among the candidate
ids. -/
theorem c10_candidates_invariant_witness :
    (((searchBdlBestPlayer searchEx10 "li").2.1).map BdlPlayer.id).Nodup ∧
    pLi.id ∈ ((searchBdlBestPlayer searchEx10 "li").2.1).map BdlPlayer.id :=
  ⟨(c10_candidates_invariant searchEx10 "li").1,
   (c10_candidates_invariant searchEx10 "li").2 pLi (by decide)⟩
